import Mathlib

/-!
Verification development for the oxc AST transformation pipeline core.

Part A embeds the peephole minifier pass
(crates/oxc_minifier/src/ast_passes/peephole_substitute_alternate_syntax.rs)
over a representative fragment of the oxc AST, together with the traversal
order of oxc_traverse that the pass relies on (enter hooks before descent,
exit hooks after, descent observing node replacement).

Part B embeds the pipeline composer of crates/oxc_transformer/src/lib.rs
as per-node-kind hook invocation lists over the member passes.

Part C embeds the module-lexer DTO conversion of
napi/parser/src/module_lexer.rs.
-/

set_option maxHeartbeats 4000000

namespace Oxc

/-! ### Part A: AST fragment

The AST fragment covers the node kinds the peephole pass inspects or
produces.  An identifier reference carries, besides its name, the answer
the scope table gives for it: whether the reference resolves to the global
intrinsic (`true`) or to a local user binding (`false`).  The scope
analyzer is an external collaborator, so this flag is the embedding of its
output.  Spans are not modelled: the pass reads no span and the claims
mention none.  Numeric literal values are modelled as integers; the pass
only ever constructs the literals 0 and 1 and never computes with them. -/

inductive UnaryOp where
  | logicalNot
  | void
  | typeof
  | minus
deriving DecidableEq

inductive BinOp where
  | equality
  | strictEquality
  | greaterThan
  | addition
deriving DecidableEq

inductive VarKind where
  | var
  | letKind
  | const
deriving DecidableEq

mutual
inductive Expr where
  | booleanLiteral (value : Bool)
  | numericLiteral (value : Int) (raw : String)
  | stringLiteral (value : String)
  | nullLiteral
  | identifier (name : String) (resolvesToIntrinsic : Bool)
  | unary (op : UnaryOp) (argument : Expr)
  | binary (op : BinOp) (left : Expr) (right : Expr)
  | staticMemberExpr (object : Expr) (property : String)
  | computedMemberExpr (object : Expr) (property : Expr)
  | callExpr (callee : Expr) (args : List Expr)
  | objectExpr (properties : List ObjProp)
  | functionExpr (body : List Stmt)
  | arrowFunctionExpr (expression : Bool) (body : List Stmt)

inductive ObjProp where
  | mk (key : String) (value : Expr)

inductive VariableDeclarator where
  | mk (kind : VarKind) (init : Option Expr)

inductive Stmt where
  | expressionStmt (expression : Expr)
  | blockStmt (body : List Stmt)
  | returnStmt (argument : Option Expr)
  | variableDeclStmt (declarations : List VariableDeclarator)
  | emptyStmt
end

def VariableDeclarator.kind : VariableDeclarator → VarKind
  | .mk k _ => k

def VariableDeclarator.init : VariableDeclarator → Option Expr
  | .mk _ i => i

/-- Modelled from the spec: `Statement::is_declaration` (oxc_ast, not under
src/).  In the embedded statement fragment the only declaration form is a
variable declaration. -/
def Stmt.is_declaration : Stmt → Bool
  | .variableDeclStmt _ => true
  | _ => false

/-- Modelled from the spec: a literal expression, the operand class that
`void <literal>` accepts in the undefined helpers. -/
def Expr.is_literal : Expr → Bool
  | .booleanLiteral _ => true
  | .numericLiteral _ _ => true
  | .stringLiteral _ => true
  | .nullLiteral => true
  | _ => false

/-- Modelled from the spec: `NodeUtil::is_expression_undefined` (oxc_minifier
node_util, not under src/): true iff the expression is a reference named
undefined whose scope-resolved binding is the intrinsic, or `void <literal>`. -/
def is_expression_undefined : Expr → Bool
  | .identifier name resolvesToIntrinsic => name == "undefined" && resolvesToIntrinsic
  | .unary .void argument => argument.is_literal
  | _ => false

/-- Modelled from the spec: `Expression::is_undefined` (oxc_ast, not under
src/), the return-statement guard: the argument is syntactically
`undefined`, resolved to the intrinsic. -/
def Expr.is_undefined : Expr → Bool
  | .identifier name resolvesToIntrinsic => name == "undefined" && resolvesToIntrinsic
  | _ => false

/-- Modelled from the spec: `Expression::is_void_0` (oxc_ast, not under
src/), the other return-statement guard: `void <literal>`. -/
def Expr.is_void_0 : Expr → Bool
  | .unary .void argument => argument.is_literal
  | _ => false

/-- Modelled from the spec: `is_specific_string_literal` (oxc_ast, not under
src/): the expression is a string literal with the given value. -/
def is_specific_string_literal (e : Expr) (v : String) : Bool :=
  match e with
  | .stringLiteral s => s == v
  | _ => false

/-- Modelled from the spec: `AstBuilder::void_0` (shared AST builder, not
under src/): the synthesized expression `void 0`. -/
def void_0 : Expr := .unary .void (.numericLiteral 0 "0")

/-! ### Part A: the pass

`CompressOptions` keeps the two sub-switches the pass reads; `PeepholePass`
is the state of `PeepholeSubstituteAlternateSyntax` (its name is shortened
here): the options plus the two boolean flags `in_define_export` and
`changed`. -/

structure CompressOptions where
  booleans : Bool
  typeofs : Bool
deriving DecidableEq

structure PeepholePass where
  options : CompressOptions
  in_define_export : Bool
  changed : Bool
deriving DecidableEq

/-- `PeepholeSubstituteAlternateSyntax::new`. -/
def PeepholePass.new (options : CompressOptions) : PeepholePass :=
  { options, in_define_export := false, changed := false }

/-- `compress_undefined`: transforms `undefined` into `void 0`.  Takes the
state read-only (the Rust method takes `&self`) and reports whether it
rewrote. -/
def compress_undefined (_st : PeepholePass) (expr : Expr) : Expr × Bool :=
  if is_expression_undefined expr then (void_0, true) else (expr, false)

/-- `is_object_define_property_exports`: tests
`Object.defineProperty(exports, ...)` with a static (not computed) member
access and first argument the identifier `exports`. -/
def is_object_define_property_exports (callee : Expr) (args : List Expr) : Bool :=
  match args.head? with
  | some (.identifier name _) =>
    if name != "exports" then false
    else
      match callee with
      | .staticMemberExpr (.identifier objName _) prop =>
        objName == "Object" && prop == "defineProperty"
      | _ => false
  | _ => false

/-- `compress_block`: removes the block from single-statement blocks,
recursively, unless the single statement is a declaration; sets `changed`
when it unwraps. -/
def compress_block : Stmt → Bool → Stmt × Bool
  | .blockStmt [inner], changed =>
    if inner.is_declaration then (.blockStmt [inner], changed)
    else compress_block inner true
  | stmt, changed => (stmt, changed)

/-- `compress_boolean`: transforms `true` into `!0` and `false` into `!1`
when `booleans` is enabled and `in_define_export` is not set.  The Rust
method takes `&mut self`; the returned state is proved unchanged later. -/
def compress_boolean (st : PeepholePass) (expr : Expr) : PeepholePass × Expr × Bool :=
  match expr with
  | .booleanLiteral value =>
    if st.options.booleans && !st.in_define_export then
      let num : Expr := .numericLiteral (if value then 0 else 1) (if value then "0" else "1")
      (st, .unary .logicalNot num, true)
    else (st, expr, false)
  | _ => (st, expr, false)

/-- `commutative_pair`: tries `check_a` on the first component and `check_b`
on the second, else `check_a` on the second and `check_b` on the first. -/
def commutative_pair {A RF RG : Type} (pair : A × A)
    (check_a : A → Option RF) (check_b : A → Option RG) : Option (RF × RG) :=
  match check_a pair.1 with
  | some a =>
    match check_b pair.2 with
    | some b => some (a, b)
    | none => none
  | none =>
    match check_a pair.2 with
    | some a =>
      match check_b pair.1 with
      | some b => some (a, b)
      | none => none
    | none => none

/-- The first closure of `compress_typeof_undefined`: the operand is the
string literal "undefined". -/
def check_a (a : Expr) : Option Unit :=
  if is_specific_string_literal a "undefined" then some () else none

/-- The second closure of `compress_typeof_undefined`: the operand is
`typeof <identifier reference>`; the clone of the reference is returned as
its name and resolution flag. -/
def check_b (b : Expr) : Option (String × Bool) :=
  match b with
  | .unary .typeof (.identifier name resolvesToIntrinsic) => some (name, resolvesToIntrinsic)
  | _ => none

/-- `compress_typeof_undefined`: compresses `typeof foo == "undefined"`
(also `===`, in either operand order) into `typeof foo > "u"`, when
`typeofs` is enabled.  Takes the state read-only (`&self`). -/
def compress_typeof_undefined (st : PeepholePass) (op : BinOp) (left right : Expr) : Expr :=
  if !st.options.typeofs then .binary op left right
  else if !(op == BinOp.equality || op == BinOp.strictEquality) then .binary op left right
  else
    match commutative_pair (left, right) check_a check_b with
    | some (_, (name, resolvesToIntrinsic)) =>
      .binary .greaterThan (.unary .typeof (.identifier name resolvesToIntrinsic))
        (.stringLiteral "u")
    | none => .binary op left right

/-- `compress_return_statement`: drops the argument of
`return undefined` and `return void 0`, setting `changed`. -/
def compress_return_statement (st : PeepholePass) (argument : Option Expr) :
    PeepholePass × Option Expr :=
  match argument with
  | some e =>
    if e.is_undefined || e.is_void_0 then ({ st with changed := true }, none)
    else (st, some e)
  | none => (st, none)

/-- `compress_variable_declarator`: for a non-const declarator whose
initializer is the intrinsic undefined, drops the initializer and sets
`changed`. -/
def compress_variable_declarator (st : PeepholePass) (decl : VariableDeclarator) :
    PeepholePass × VariableDeclarator :=
  if decl.kind == .const then (st, decl)
  else
    match decl.init with
    | some init =>
      if is_expression_undefined init then
        ({ st with changed := true }, .mk decl.kind none)
      else (st, decl)
    | none => (st, decl)

/-- The `enter_variable_declaration` hook: runs
`compress_variable_declarator` over every declarator of the declaration. -/
def enter_variable_declaration (st : PeepholePass) (decls : List VariableDeclarator) :
    PeepholePass × List VariableDeclarator :=
  match decls with
  | [] => (st, [])
  | d :: rest =>
    let r1 := compress_variable_declarator st d
    let r2 := enter_variable_declaration r1.1 rest
    (r2.1, r1.2 :: r2.2)

/-- The `enter_call_expression` hook: sets `in_define_export` when the call
is the expression of an expression statement (the parent test through the
ancestor stack) and matches `Object.defineProperty(exports, ...)`. -/
def enter_call_expression (st : PeepholePass) (parentIsExpressionStmt : Bool)
    (callee : Expr) (args : List Expr) : PeepholePass :=
  if parentIsExpressionStmt && is_object_define_property_exports callee args then
    { st with in_define_export := true }
  else st

/-- The `exit_call_expression` hook: clears `in_define_export`
(unconditionally, for every call expression exited). -/
def exit_call_expression (st : PeepholePass) : PeepholePass :=
  { st with in_define_export := false }

/-- The `enter_expression` hook: `compress_undefined`, and only if it did
not fire, `compress_boolean`.  The third component reports whether the
expression node was replaced. -/
def enter_expression (st : PeepholePass) (expr : Expr) : PeepholePass × Expr × Bool :=
  match compress_undefined st expr with
  | (e1, true) => (st, e1, true)
  | (_, false) => compress_boolean st expr

/-! ### Part A: the traversal

Size bounds for the two enter hooks that replace nodes before descent. -/

theorem compress_block_sizeOf (s : Stmt) (ch : Bool) :
    sizeOf (compress_block s ch).1 ≤ sizeOf s := by
  induction s, ch using compress_block.induct with
  | case1 inner ch hdecl =>
    rw [compress_block, if_pos hdecl]
  | case2 inner ch hdecl ih =>
    rw [compress_block, if_neg hdecl]
    have h2 : sizeOf inner ≤ sizeOf (Stmt.blockStmt [inner]) := by
      simp
      omega
    omega
  | case3 s ch h =>
    rw [compress_block.eq_def]
    split
    · exfalso
      rename_i inner
      exact h inner rfl
    · simp

theorem compress_variable_declarator_sizeOf (st : PeepholePass) (d : VariableDeclarator) :
    sizeOf (compress_variable_declarator st d).2 ≤ sizeOf d := by
  cases d with
  | mk k i =>
    unfold compress_variable_declarator
    simp only [VariableDeclarator.kind, VariableDeclarator.init]
    cases i with
    | none =>
      split <;> simp
    | some e =>
      split
      · simp
      · by_cases h : is_expression_undefined e = true
        all_goals simp [h]

theorem enter_variable_declaration_sizeOf (st : PeepholePass)
    (decls : List VariableDeclarator) :
    sizeOf (enter_variable_declaration st decls).2 ≤ sizeOf decls := by
  induction decls generalizing st with
  | nil => simp [enter_variable_declaration]
  | cons d rest ih =>
    rw [enter_variable_declaration]
    have h1 := compress_variable_declarator_sizeOf st d
    have h2 := ih (compress_variable_declarator st d).1
    simp only [List.cons.sizeOf_spec]
    simp
    omega

mutual

/-- Traversal of a statement: the `enter_statement` hook (`compress_block`)
fires first and descent continues into the possibly replaced statement, as
oxc_traverse specifies (replacement during enter is observed by descent). -/
def walkStmt (st : PeepholePass) (s : Stmt) : PeepholePass × Stmt :=
  let r := compress_block s st.changed
  walkStmtChildren { st with changed := r.2 } r.1
termination_by 2 * sizeOf s + 1
decreasing_by
  simp_wf
  have h := compress_block_sizeOf s st.changed
  omega

/-- Descent into the children of a statement, followed by the statement
exit hooks of the pass (`exit_return_statement`). -/
def walkStmtChildren (st : PeepholePass) (s : Stmt) : PeepholePass × Stmt :=
  match s with
  | .expressionStmt e =>
    let r := walkExpr st true e
    (r.1, .expressionStmt r.2)
  | .blockStmt body =>
    let r := walkStmtList st body
    (r.1, .blockStmt r.2)
  | .returnStmt none =>
    let r := compress_return_statement st none
    (r.1, .returnStmt r.2)
  | .returnStmt (some e) =>
    let r := walkExpr st false e
    let r2 := compress_return_statement r.1 (some r.2)
    (r2.1, .returnStmt r2.2)
  | .variableDeclStmt decls =>
    let r := enter_variable_declaration st decls
    let r2 := walkDeclList r.1 r.2
    (r2.1, .variableDeclStmt r2.2)
  | .emptyStmt => (st, .emptyStmt)
termination_by 2 * sizeOf s
decreasing_by
  all_goals simp_wf
  all_goals try omega
  have h := enter_variable_declaration_sizeOf st decls
  omega

def walkStmtList (st : PeepholePass) (l : List Stmt) : PeepholePass × List Stmt :=
  match l with
  | [] => (st, [])
  | s :: rest =>
    let r := walkStmt st s
    let r2 := walkStmtList r.1 rest
    (r2.1, r.2 :: r2.2)
termination_by 2 * sizeOf l

/-- Descent into variable declarators: each declarator's initializer is
walked as an expression (the declarator itself has no further hooks in this
pass). -/
def walkDeclList (st : PeepholePass) (l : List VariableDeclarator) :
    PeepholePass × List VariableDeclarator :=
  match l with
  | [] => (st, [])
  | .mk k (some e) :: rest =>
    let r := walkExpr st false e
    let r2 := walkDeclList r.1 rest
    (r2.1, .mk k (some r.2) :: r2.2)
  | .mk k none :: rest =>
    let r := walkDeclList st rest
    (r.1, .mk k none :: r.2)
termination_by 2 * sizeOf l

/-- Traversal of an expression: the `enter_expression` hook first; when the
hook replaced the node, the replacement (always `void 0` or a logical-not
of a numeric literal) is descended into, which only invokes
`enter_expression` on its numeric-literal child, a no-op, so descent
returns it unchanged; otherwise descent walks the children in source
order, with the call hooks around the call children and the binary exit
hook after the binary children. -/
def walkExpr (st : PeepholePass) (parentIsExpressionStmt : Bool) (e : Expr) :
    PeepholePass × Expr :=
  let r := enter_expression st e
  if r.2.2 then (r.1, r.2.1)
  else
    match e with
    | .callExpr callee args =>
      let st1 := enter_call_expression r.1 parentIsExpressionStmt callee args
      let rc := walkExpr st1 false callee
      let ra := walkExprList rc.1 args
      let st2 := exit_call_expression ra.1
      (st2, .callExpr rc.2 ra.2)
    | .unary op a =>
      let ra := walkExpr r.1 false a
      (ra.1, .unary op ra.2)
    | .binary op l rgt =>
      let rl := walkExpr r.1 false l
      let rr := walkExpr rl.1 false rgt
      (rr.1, compress_typeof_undefined rr.1 op rl.2 rr.2)
    | .staticMemberExpr obj prop =>
      let ro := walkExpr r.1 false obj
      (ro.1, .staticMemberExpr ro.2 prop)
    | .computedMemberExpr obj prop =>
      let ro := walkExpr r.1 false obj
      let rp := walkExpr ro.1 false prop
      (rp.1, .computedMemberExpr ro.2 rp.2)
    | .objectExpr props =>
      let rp := walkPropList r.1 props
      (rp.1, .objectExpr rp.2)
    | .functionExpr body =>
      let rb := walkStmtList r.1 body
      (rb.1, .functionExpr rb.2)
    | .arrowFunctionExpr isExpression body =>
      let rb := walkStmtList r.1 body
      (rb.1, .arrowFunctionExpr isExpression rb.2)
    | other => (r.1, other)
termination_by 2 * sizeOf e

def walkExprList (st : PeepholePass) (l : List Expr) : PeepholePass × List Expr :=
  match l with
  | [] => (st, [])
  | e :: rest =>
    let r := walkExpr st false e
    let r2 := walkExprList r.1 rest
    (r2.1, r.2 :: r2.2)
termination_by 2 * sizeOf l

/-- Descent into object properties: keys in the fragment are static names,
so only the values are walked. -/
def walkPropList (st : PeepholePass) (l : List ObjProp) : PeepholePass × List ObjProp :=
  match l with
  | [] => (st, [])
  | .mk key value :: rest =>
    let r := walkExpr st false value
    let r2 := walkPropList r.1 rest
    (r2.1, .mk key r.2 :: r2.2)
termination_by 2 * sizeOf l

end

/-- `CompressorPass::build` for the pass: resets `changed`, then walks the
program (its statement list). -/
def build (st : PeepholePass) (program : List Stmt) : PeepholePass × List Stmt :=
  walkStmtList { st with changed := false } program

/-! ### Part B: the pipeline composer

`TransformerImpl` of crates/oxc_transformer/src/lib.rs forwards each hook
to its member passes.  Each hook body is embedded as the list of member
passes it invokes, in invocation order.  The TypeScript member is an
`Option` (present only for TypeScript sources); the `ts` flag models the
`if let Some` guards around its calls.  The `exit_arrow_function_expression`
hook is the composer's own arrow-body normalization and forwards to no
member, so its list is empty. -/

inductive Pass where
  | typescript
  | jsx
  | es2022
  | es2021
  | es2020
  | es2019
  | es2018
  | es2017
  | es2016
  | es2015
  | regexp
  | common
deriving DecidableEq, Fintype

/-- The declared member order of `TransformerImpl`: TypeScript stripper,
JSX lowerer, per-year ES lowerers from newest to oldest, regexp lowerer,
common helpers (struct fields x0_typescript through x4_regexp, common). -/
def declaredOrder : List Pass :=
  [.typescript, .jsx, .es2022, .es2021, .es2020, .es2019, .es2018, .es2017,
   .es2016, .es2015, .regexp, .common]

/-- The node kinds for which `TransformerImpl` implements a hook. -/
inductive NodeKind where
  | program
  | arrowFunctionExpression
  | variableDeclarator
  | bigIntLiteral
  | bindingPattern
  | callExpression
  | classNode
  | classBody
  | staticBlock
  | tsModuleDeclaration
  | expression
  | simpleAssignmentTarget
  | assignmentTarget
  | formalParameter
  | functionNode
  | jsxElement
  | jsxElementName
  | jsxMemberExpressionObject
  | jsxFragment
  | jsxOpeningElement
  | methodDefinition
  | newExpression
  | propertyDefinition
  | accessorProperty
  | statements
  | statement
  | declaration
  | ifStatement
  | whileStatement
  | doWhileStatement
  | forStatement
  | forOfStatement
  | forInStatement
  | catchClause
  | taggedTemplateExpression
  | importDeclaration
  | exportAllDeclaration
  | exportNamedDeclaration
  | tsExportAssignment
deriving DecidableEq, Fintype

/-- The TypeScript member when present: the `if let Some(typescript)`
guard around each of its forwarded calls. -/
def tsHook (ts : Bool) : List Pass := if ts then [.typescript] else []

/-- The member passes each enter hook of `TransformerImpl` invokes, in
invocation order, transcribed hook by hook from lib.rs. -/
def enterHooks (ts : Bool) : NodeKind → List Pass
  | .program => tsHook ts ++ [.jsx]
  | .arrowFunctionExpression => tsHook ts
  | .variableDeclarator => tsHook ts
  | .bigIntLiteral => [.es2020]
  | .bindingPattern => tsHook ts
  | .callExpression => tsHook ts ++ [.jsx]
  | .classNode => tsHook ts
  | .classBody => tsHook ts ++ [.es2022]
  | .staticBlock => [.common]
  | .tsModuleDeclaration => tsHook ts
  | .expression => tsHook ts ++ [.es2021, .es2020, .es2018, .es2016, .regexp, .common]
  | .simpleAssignmentTarget => tsHook ts
  | .assignmentTarget => tsHook ts
  | .formalParameter => tsHook ts
  | .functionNode => [.common]
  | .jsxElement => tsHook ts
  | .jsxElementName => [.common]
  | .jsxMemberExpressionObject => [.common]
  | .jsxFragment => tsHook ts
  | .jsxOpeningElement => tsHook ts ++ [.jsx]
  | .methodDefinition => tsHook ts
  | .newExpression => tsHook ts
  | .propertyDefinition => tsHook ts
  | .accessorProperty => tsHook ts
  | .statements => [.common] ++ tsHook ts
  | .statement => tsHook ts ++ [.es2018]
  | .declaration => tsHook ts
  | .ifStatement => tsHook ts
  | .whileStatement => tsHook ts
  | .doWhileStatement => tsHook ts
  | .forStatement => tsHook ts
  | .forOfStatement => tsHook ts ++ [.es2018]
  | .forInStatement => tsHook ts
  | .catchClause => [.es2019]
  | .taggedTemplateExpression => tsHook ts
  | .importDeclaration => tsHook ts
  | .exportAllDeclaration => tsHook ts
  | .exportNamedDeclaration => tsHook ts
  | .tsExportAssignment => tsHook ts

/-- The member passes each exit hook of `TransformerImpl` invokes, in
invocation order, transcribed hook by hook from lib.rs; kinds without an
exit hook give the empty list. -/
def exitHooks (ts : Bool) : NodeKind → List Pass
  | .program => [.jsx] ++ tsHook ts ++ [.common]
  | .staticBlock => [.common]
  | .expression => [.jsx, .es2018, .es2017, .common]
  | .functionNode => tsHook ts ++ [.jsx, .es2018, .es2017, .common]
  | .methodDefinition => tsHook ts
  | .arrowFunctionExpression => []
  | .statements => tsHook ts ++ [.common]
  | .statement => tsHook ts ++ [.es2018, .es2017]
  | _ => []

/-- hooks fire in an order consistent with `order`: the hook list is a
subsequence of it. -/
def inOrder : List Pass → List Pass → Bool
  | [], _ => true
  | _ :: _, [] => false
  | a :: rest, b :: order =>
    if a = b then inOrder rest order else inOrder (a :: rest) order

/-! ### Part C: the module-lexer DTOs

napi/parser/src/module_lexer.rs converts `oxc_module_lexer` records into
the napi DTOs.  The input record shapes (`ImportType`, `ImportSpecifier`)
live in the oxc_module_lexer crate, not under src/; they are modelled from
the spec with the fields the conversion reads.  `u32` offsets are modelled
as `Nat` (values below 2^32; the `as i64` cast is value-preserving) and
`i64` as `Int`. -/

inductive ImportType where
  | dynamicImport (start : Nat)
  | staticImport
  | importMeta
  | exportStar
deriving DecidableEq

/-- Modelled from the spec: `oxc_module_lexer::ImportSpecifier` (not under
src/), with the fields the DTO conversion reads. -/
structure ImportSpecifier where
  n : Option String
  s : Nat
  e : Nat
  ss : Nat
  se : Nat
  d : ImportType
  a : Option Nat
deriving DecidableEq

/-- The napi `ModuleLexerImportSpecifier` DTO. -/
structure ModuleLexerImportSpecifier where
  n : Option String
  s : Nat
  e : Nat
  ss : Nat
  se : Nat
  d : Int
  a : Int
deriving DecidableEq

/-- The `From<ImportSpecifier> for ModuleLexerImportSpecifier` conversion:
`n` maps through, `d` encodes the import type with the sentinel values
-1, -2 and -3, `a` is the assertion start or -1. -/
def moduleLexerImportSpecifier_from (i : ImportSpecifier) : ModuleLexerImportSpecifier :=
  { n := i.n.map (fun x => x)
  , s := i.s
  , e := i.e
  , ss := i.ss
  , se := i.se
  , d := match i.d with
      | .dynamicImport start => (start : Int)
      | .staticImport => -1
      | .importMeta => -2
      | .exportStar => -3
  , a := i.a.elim (-1) (fun x => (x : Int)) }

/-! ### Part B continued: the arrow-body normalization

`TransformerImpl::exit_arrow_function_expression` is the composer's own
code.  `pop` takes the last statement; the `unreachable` branch (last
statement of an expression-bodied arrow not an expression statement) is
modelled as `none`, an aborted traversal. -/

def exit_arrow_function_expression (expression : Bool) (statements : List Stmt) :
    Option (Bool × List Stmt) :=
  if expression && statements.length > 1 then
    match statements.getLast? with
    | some (.expressionStmt e) =>
      some (false, statements.dropLast ++ [.returnStmt (some e)])
    | _ => none
  else some (expression, statements)

/-! ### Concrete pass states and programs used by the claim theorems -/

def passDefault : PeepholePass := PeepholePass.new ⟨false, false⟩

def passBooleans : PeepholePass := PeepholePass.new ⟨true, false⟩

def passAll : PeepholePass := PeepholePass.new ⟨true, true⟩

/-- Written from the claim, to compare with the source's commutative-pair
implementation: the typeof rewrite applies when one operand is the string
literal "undefined" and the other is typeof of an identifier reference (in
either order, without retrying the flipped direction when the first
operand already matched the string literal), producing the comparison
typeof IDENT > "u". -/
def specTypeofUndefinedRewrite (l r : Expr) : Option Expr :=
  if is_specific_string_literal l "undefined" then
    (check_b r).map (fun p =>
      .binary .greaterThan (.unary .typeof (.identifier p.1 p.2)) (.stringLiteral "u"))
  else if is_specific_string_literal r "undefined" then
    (check_b l).map (fun p =>
      .binary .greaterThan (.unary .typeof (.identifier p.1 p.2)) (.stringLiteral "u"))
  else none

/-- The statement `Object.defineProperty(exports, "Foo", {get: f(),
enumerable: true});` with the descriptor properties ordered so that the
nested call `f()` is traversed before the boolean literal. -/
def defineExportGetFirst : Stmt :=
  .expressionStmt (.callExpr
    (.staticMemberExpr (.identifier "Object" false) "defineProperty")
    [.identifier "exports" false,
     .stringLiteral "Foo",
     .objectExpr [.mk "get" (.callExpr (.identifier "f" false) []),
                  .mk "enumerable" (.booleanLiteral true)]])

/-- What the pass produces from `defineExportGetFirst` with booleans
enabled: the boolean literal inside the descriptor has become `!0`. -/
def defineExportGetFirstOut : Stmt :=
  .expressionStmt (.callExpr
    (.staticMemberExpr (.identifier "Object" false) "defineProperty")
    [.identifier "exports" false,
     .stringLiteral "Foo",
     .objectExpr [.mk "get" (.callExpr (.identifier "f" false) []),
                  .mk "enumerable" (.unary .logicalNot (.numericLiteral 0 "0"))]])

/-- The statement `Object.defineProperty(exports, "Foo", {enumerable:
true, get: f()});`: the boolean literal precedes any nested call. -/
def defineExportEnumFirst : Stmt :=
  .expressionStmt (.callExpr
    (.staticMemberExpr (.identifier "Object" false) "defineProperty")
    [.identifier "exports" false,
     .stringLiteral "Foo",
     .objectExpr [.mk "enumerable" (.booleanLiteral true),
                  .mk "get" (.callExpr (.identifier "f" false) [])]])

/-- A program in which only the three expression-level rewrites can fire:
`undefined; typeof x == "undefined"; true;`. -/
def onlyExprProgram : List Stmt :=
  [.expressionStmt (.identifier "undefined" true),
   .expressionStmt (.binary .equality (.unary .typeof (.identifier "x" false))
     (.stringLiteral "undefined")),
   .expressionStmt (.booleanLiteral true)]

/-- The output of the pass on `onlyExprProgram` with booleans and typeofs
enabled: all three statements rewritten. -/
def onlyExprProgramOut : List Stmt :=
  [.expressionStmt void_0,
   .expressionStmt (.binary .greaterThan (.unary .typeof (.identifier "x" false))
     (.stringLiteral "u")),
   .expressionStmt (.unary .logicalNot (.numericLiteral 0 "0"))]

/-! ### Helper lemmas on compress_block -/

theorem compress_block_changed (s : Stmt) (ch : Bool) :
    (compress_block s ch).2 = ch ∨ (compress_block s ch).2 = true := by
  induction s, ch using compress_block.induct with
  | case1 inner ch hdecl =>
    rw [compress_block, if_pos hdecl]
    left
    rfl
  | case2 inner ch hdecl ih =>
    rw [compress_block, if_neg hdecl]
    right
    rcases ih with h | h <;> exact h
  | case3 s ch h =>
    rw [compress_block.eq_def]
    split
    · exfalso
      rename_i inner
      exact h inner rfl
    · left
      rfl

theorem compress_block_changed_true (s : Stmt) : (compress_block s true).2 = true := by
  rcases compress_block_changed s true with h | h <;> exact h

theorem compress_block_result_no_unwrap (s : Stmt) (ch : Bool) :
    ∀ inner, (compress_block s ch).1 = .blockStmt [inner] → inner.is_declaration = true := by
  induction s, ch using compress_block.induct with
  | case1 inner ch hdecl =>
    intro j hj
    rw [compress_block, if_pos hdecl] at hj
    simp at hj
    rw [← hj]
    exact hdecl
  | case2 inner ch hdecl ih =>
    intro j hj
    rw [compress_block, if_neg hdecl] at hj
    exact ih j hj
  | case3 s ch h =>
    intro j hj
    rw [compress_block.eq_def] at hj
    split at hj
    · exfalso
      rename_i inner
      exact h inner rfl
    · exact absurd hj (by simpa using h j)

/-! ### Claim theorems -/

/-- C1, counterexample: the composer's exit-hooks do not fire in the
reverse of the declared member order: for the expression kind they fire as
jsx, es2018, es2017, common, whose reversal is not a subsequence of the
declared order; and even the enter-hooks are not all in declared order:
for the statements kind common fires before the TypeScript stripper. -/
theorem pipeline_exit_order_not_reversed :
    inOrder ((exitHooks true .expression).reverse) declaredOrder = false ∧
    inOrder (enterHooks true .statements) declaredOrder = false := by
  decide

/-- C1, amended: for every node kind the composer handles, the enter-hooks
fire as a subsequence of the declared member order except statements-enter
(where the common pass runs before the TypeScript stripper), and the
exit-hooks also fire as a subsequence of the declared order - forward, not
reversed - except program-exit (where JSX runs before the TypeScript
stripper, and common runs last). -/
theorem pipeline_hook_order (ts : Bool) (k : NodeKind) :
    (k ≠ .statements → inOrder (enterHooks ts k) declaredOrder = true) ∧
    (k ≠ .program → inOrder (exitHooks ts k) declaredOrder = true) ∧
    enterHooks ts .statements = .common :: tsHook ts ∧
    exitHooks ts .program = .jsx :: (tsHook ts ++ [.common]) := by
  revert ts k
  decide

theorem pipeline_hook_order_witness :
    inOrder (enterHooks true .expression) declaredOrder = true ∧
    inOrder (exitHooks true .functionNode) declaredOrder = true :=
  ⟨(pipeline_hook_order true .expression).1 (by decide),
   (pipeline_hook_order true .functionNode).2.1 (by decide)⟩

/-- C8: on arrow-function exit, an expression-bodied arrow with more than
one statement has its last statement popped and re-pushed as a return of
its expression, with the expression flag cleared; whenever the last
statement of an expression-bodied arrow is an expression statement the
aborting branch is not taken; and an expression-bodied arrow with exactly
one statement is left unchanged. -/
theorem arrow_body_normalization :
    (∀ (stmts : List Stmt) (e : Expr), stmts.length > 1 →
      stmts.getLast? = some (.expressionStmt e) →
      exit_arrow_function_expression true stmts =
        some (false, stmts.dropLast ++ [.returnStmt (some e)])) ∧
    (∀ stmts : List Stmt, (∃ e, stmts.getLast? = some (.expressionStmt e)) →
      (exit_arrow_function_expression true stmts).isSome = true) ∧
    (∀ stmts : List Stmt, stmts.length = 1 →
      exit_arrow_function_expression true stmts = some (true, stmts)) ∧
    (∀ stmts : List Stmt,
      exit_arrow_function_expression false stmts = some (false, stmts)) := by
  refine ⟨?_, ?_, ?_, ?_⟩
  · intro stmts e hlen hlast
    unfold exit_arrow_function_expression
    rw [if_pos (by simp [hlen])]
    rw [hlast]
  · intro stmts he
    obtain ⟨e, hlast⟩ := he
    unfold exit_arrow_function_expression
    by_cases hlen : stmts.length > 1
    · rw [if_pos (by simp [hlen])]
      rw [hlast]
      simp
    · rw [if_neg (by simp [hlen])]
      simp
  · intro stmts hlen
    unfold exit_arrow_function_expression
    rw [if_neg (by simp [hlen])]
  · intro stmts
    unfold exit_arrow_function_expression
    simp

theorem arrow_body_normalization_witness :
    exit_arrow_function_expression true
      [.emptyStmt, .expressionStmt (.numericLiteral 1 "1")] =
      some (false, [.emptyStmt, .returnStmt (some (.numericLiteral 1 "1"))]) := by
  have h := arrow_body_normalization.1
    [.emptyStmt, .expressionStmt (.numericLiteral 1 "1")]
    (.numericLiteral 1 "1") (by simp) (by simp)
  simpa using h

/-- C9: the import DTO conversion sets the `d` discriminator to the start
offset for a dynamic import and to the sentinels -1, -2, -3 for static
import, import.meta and export star; sets `a` to the assertion start when
present and -1 otherwise; and carries the specifier `n` through, absent
exactly when the source specifier is absent. -/
theorem module_lexer_import_record (i : ImportSpecifier) :
    (∀ start, i.d = .dynamicImport start →
      (moduleLexerImportSpecifier_from i).d = (start : Int)) ∧
    (i.d = .staticImport → (moduleLexerImportSpecifier_from i).d = -1) ∧
    (i.d = .importMeta → (moduleLexerImportSpecifier_from i).d = -2) ∧
    (i.d = .exportStar → (moduleLexerImportSpecifier_from i).d = -3) ∧
    (∀ x, i.a = some x → (moduleLexerImportSpecifier_from i).a = (x : Int)) ∧
    (i.a = none → (moduleLexerImportSpecifier_from i).a = -1) ∧
    ((moduleLexerImportSpecifier_from i).n.isNone ↔ i.n.isNone) := by
  obtain ⟨n, s, e, ss, se, d, a⟩ := i
  cases d <;> cases a <;>
    simp [moduleLexerImportSpecifier_from]

/-- C3: the undefined rewrite on expression enter fires exactly when the
expression satisfies the resolution-aware helper (reference named undefined
resolving to the intrinsic, or void of a literal); in the traversal an
identifier reference is replaced by `void 0` exactly when its name is
undefined and it resolves to the intrinsic, so a reference resolving to a
local user binding named undefined is left unchanged; a void-of-literal
expression is rewritten to `void 0`. -/
theorem undefined_rewrite_shadowing_safety :
    (∀ st e, (compress_undefined st e).2 = is_expression_undefined e) ∧
    (∀ st e, (compress_undefined st e).1 =
      (if is_expression_undefined e then void_0 else e)) ∧
    (∀ st p name resolved, walkExpr st p (.identifier name resolved) =
      (st, if name == "undefined" && resolved then void_0
           else .identifier name resolved)) ∧
    (∀ st p v raw, walkExpr st p (.unary .void (.numericLiteral v raw)) =
      (st, void_0)) := by
  refine ⟨?_, ?_, ?_, ?_⟩
  · intro st e
    by_cases h : is_expression_undefined e = true <;>
      simp [compress_undefined, h]
  · intro st e
    by_cases h : is_expression_undefined e = true <;>
      simp [compress_undefined, h]
  · intro st p name resolved
    by_cases h : (name == "undefined" && resolved) = true <;>
      simp [walkExpr, enter_expression, compress_undefined, compress_boolean,
        is_expression_undefined, h]
  · intro st p v raw
    simp [walkExpr, enter_expression, compress_undefined,
      is_expression_undefined, Expr.is_literal]

/-- C4: on return-statement exit, the argument is dropped exactly when it
is syntactically undefined (resolved to the intrinsic) or void of a
literal; otherwise the return statement is left unchanged; end to end,
`return undefined` becomes the bare return (folded to `void 0` at enter,
then dropped at exit), while `return void foo()` is retained unchanged. -/
theorem return_argument_drop :
    (∀ st e, ((compress_return_statement st (some e)).2 = none) ↔
      (e.is_undefined || e.is_void_0) = true) ∧
    (∀ st e, (e.is_undefined || e.is_void_0) = false →
      compress_return_statement st (some e) = (st, some e)) ∧
    (walkStmt passDefault (.returnStmt (some (.identifier "undefined" true))) =
      ({ passDefault with changed := true }, .returnStmt none)) ∧
    (walkStmt passDefault
        (.returnStmt (some (.unary .void (.callExpr (.identifier "foo" false) [])))) =
      (passDefault,
        .returnStmt (some (.unary .void (.callExpr (.identifier "foo" false) []))))) := by
  refine ⟨?_, ?_, ?_, ?_⟩
  · intro st e
    by_cases h : (e.is_undefined || e.is_void_0) = true <;>
      simp [compress_return_statement, h]
  · intro st e h
    simp [compress_return_statement, h]
  · simp [walkStmt, walkStmtChildren, walkExpr, enter_expression, compress_undefined,
      compress_block, compress_return_statement, is_expression_undefined,
      Expr.is_literal, Expr.is_undefined, Expr.is_void_0, void_0, passDefault,
      PeepholePass.new]
  · simp [walkStmt, walkStmtChildren, walkExpr, walkExprList, enter_expression,
      compress_undefined, compress_boolean, compress_block, compress_return_statement,
      enter_call_expression, exit_call_expression, is_object_define_property_exports,
      is_expression_undefined, Expr.is_literal, Expr.is_undefined, Expr.is_void_0,
      void_0, passDefault, PeepholePass.new]

theorem return_argument_drop_witness :
    compress_return_statement passDefault (some (.callExpr (.identifier "g" false) [])) =
      (passDefault, some (.callExpr (.identifier "g" false) [])) :=
  return_argument_drop.2.1 passDefault (.callExpr (.identifier "g" false) [])
    (by simp [Expr.is_undefined, Expr.is_void_0])

/-- C5: on statement enter, a block whose body is exactly one
non-declaration statement is replaced by that statement and the
replacement is applied recursively (the recursion equation, plus a
concrete nested chain unwrapping in one visit); a singleton block whose
statement is a declaration is never unwrapped, nor is a block whose body
is not exactly one statement; and the unwrap never leaves an unwrappable
singleton block behind. -/
theorem block_unwrap :
    (∀ (inner : Stmt) (ch : Bool), inner.is_declaration = false →
      compress_block (.blockStmt [inner]) ch = compress_block inner true) ∧
    (∀ (inner : Stmt) (ch : Bool), inner.is_declaration = true →
      compress_block (.blockStmt [inner]) ch = (.blockStmt [inner], ch)) ∧
    (∀ (body : List Stmt) (ch : Bool), body.length ≠ 1 →
      compress_block (.blockStmt body) ch = (.blockStmt body, ch)) ∧
    (∀ (s : Stmt) (ch : Bool) (inner : Stmt),
      (compress_block s ch).1 = .blockStmt [inner] → inner.is_declaration = true) ∧
    (walkStmt passDefault (.blockStmt [.blockStmt [.returnStmt none]]) =
      ({ passDefault with changed := true }, .returnStmt none)) ∧
    (walkStmt passDefault
        (.blockStmt [.variableDeclStmt [.mk .var (some (.numericLiteral 1 "1"))]]) =
      (passDefault,
        .blockStmt [.variableDeclStmt [.mk .var (some (.numericLiteral 1 "1"))]])) := by
  refine ⟨?_, ?_, ?_, ?_, ?_, ?_⟩
  · intro inner ch h
    rw [compress_block, if_neg (by simp [h])]
  · intro inner ch h
    rw [compress_block, if_pos h]
  · intro body ch hlen
    cases body with
    | nil => simp [compress_block]
    | cons a t =>
      cases t with
      | nil => exact absurd rfl hlen
      | cons b t2 => simp [compress_block]
  · exact compress_block_result_no_unwrap
  · simp [walkStmt, walkStmtChildren, walkStmtList, compress_block,
      compress_return_statement, Stmt.is_declaration, passDefault, PeepholePass.new]
  · simp [walkStmt, walkStmtChildren, walkStmtList, walkDeclList, walkExpr,
      enter_expression, compress_undefined, compress_boolean, compress_block,
      enter_variable_declaration, compress_variable_declarator,
      is_expression_undefined, Expr.is_literal, VariableDeclarator.kind,
      VariableDeclarator.init, Stmt.is_declaration, passDefault, PeepholePass.new]

theorem block_unwrap_witness :
    compress_block (.blockStmt [.returnStmt none]) false =
      compress_block (.returnStmt none) true :=
  block_unwrap.1 (.returnStmt none) false (by simp [Stmt.is_declaration])

/-- C6: with typeofs enabled, on binary-expression exit an equality or
strict-equality with the string literal "undefined" on one side and typeof
of an identifier reference on the other, in either order, is rewritten to
typeof IDENT > "u", and every other shape (or disabled option) is left
unchanged; plus the two operand orders run through the full expression
traversal. -/
theorem typeof_undefined_rewrite :
    (∀ st op l r, compress_typeof_undefined st op l r =
      if st.options.typeofs && (op == BinOp.equality || op == BinOp.strictEquality) then
        (specTypeofUndefinedRewrite l r).getD (.binary op l r)
      else .binary op l r) ∧
    (walkExpr passAll false
        (.binary .equality (.unary .typeof (.identifier "x" false))
          (.stringLiteral "undefined")) =
      (passAll, .binary .greaterThan (.unary .typeof (.identifier "x" false))
        (.stringLiteral "u"))) ∧
    (walkExpr passAll false
        (.binary .strictEquality (.stringLiteral "undefined")
          (.unary .typeof (.identifier "x" false))) =
      (passAll, .binary .greaterThan (.unary .typeof (.identifier "x" false))
        (.stringLiteral "u"))) := by
  refine ⟨?_, ?_, ?_⟩
  · intro st op l r
    unfold compress_typeof_undefined specTypeofUndefinedRewrite commutative_pair
    by_cases ht : st.options.typeofs = true
    · by_cases hop : (op == BinOp.equality || op == BinOp.strictEquality) = true
      · by_cases hl : is_specific_string_literal l "undefined" = true
        · have hca : check_a l = some () := by simp [check_a, hl]
          cases hbr : check_b r <;>
            simp [ht, hop, hl, hca, hbr]
        · have hca : check_a l = none := by simp [check_a, hl]
          by_cases hr : is_specific_string_literal r "undefined" = true
          · have hcar : check_a r = some () := by simp [check_a, hr]
            cases hbl : check_b l <;>
              simp [ht, hop, hl, hr, hca, hcar, hbl]
          · have hcar : check_a r = none := by simp [check_a, hr]
            simp [ht, hop, hl, hr, hca, hcar]
      · simp [ht, hop]
    · simp [ht]
  · simp [walkExpr, enter_expression, compress_undefined, compress_boolean,
      compress_typeof_undefined, commutative_pair, check_a, check_b,
      is_specific_string_literal, is_expression_undefined, Expr.is_literal,
      passAll, PeepholePass.new]
  · simp [walkExpr, enter_expression, compress_undefined, compress_boolean,
      compress_typeof_undefined, commutative_pair, check_a, check_b,
      is_specific_string_literal, is_expression_undefined, Expr.is_literal,
      passAll, PeepholePass.new]

/-- C7: a non-const declarator whose initializer is the intrinsic
undefined (or void of a literal) has the initializer removed with
`changed` set; a const declarator is returned unchanged by the declarator
rewrite regardless of its initializer; the declaration enter hook applies
this to every declarator; and the var case also runs end to end through
the statement traversal. -/
theorem var_initializer_drop :
    (∀ st (kind : VarKind) (e : Expr), kind ≠ .const →
      is_expression_undefined e = true →
      compress_variable_declarator st (.mk kind (some e)) =
        ({ st with changed := true }, .mk kind none)) ∧
    (∀ st (d : VariableDeclarator), d.kind = .const →
      compress_variable_declarator st d = (st, d)) ∧
    (enter_variable_declaration passDefault
        [.mk .var (some (.identifier "undefined" true)),
         .mk .const (some (.identifier "undefined" true)),
         .mk .letKind (some (.unary .void (.numericLiteral 1 "1")))] =
      ({ passDefault with changed := true },
        [.mk .var none,
         .mk .const (some (.identifier "undefined" true)),
         .mk .letKind none])) ∧
    (walkStmt passDefault
        (.variableDeclStmt [.mk .var (some (.identifier "undefined" true))]) =
      ({ passDefault with changed := true }, .variableDeclStmt [.mk .var none])) := by
  refine ⟨?_, ?_, ?_, ?_⟩
  · intro st kind e hk he
    simp [compress_variable_declarator, VariableDeclarator.kind,
      VariableDeclarator.init, hk, he]
  · intro st d hd
    cases d with
    | mk k i =>
      simp only [VariableDeclarator.kind] at hd
      simp [compress_variable_declarator, VariableDeclarator.kind, hd]
  · simp [enter_variable_declaration, compress_variable_declarator,
      VariableDeclarator.kind, VariableDeclarator.init, is_expression_undefined,
      Expr.is_literal, passDefault, PeepholePass.new]
  · simp [walkStmt, walkStmtChildren, walkDeclList, compress_block,
      enter_variable_declaration, compress_variable_declarator,
      VariableDeclarator.kind, VariableDeclarator.init, is_expression_undefined,
      Expr.is_literal, Stmt.is_declaration, passDefault, PeepholePass.new]

theorem var_initializer_drop_witness :
    compress_variable_declarator passDefault
      (.mk .letKind (some (.identifier "undefined" true))) =
      ({ passDefault with changed := true }, .mk .letKind none) :=
  var_initializer_drop.1 passDefault .letKind (.identifier "undefined" true)
    (by decide) (by simp [is_expression_undefined])

/-- C2, counterexample: with booleans enabled, a boolean literal inside
the arguments of an `Object.defineProperty(exports, ...)` expression
statement IS rewritten to `!0` when a nested call expression inside the
arguments was exited before it: exiting the nested `f()` clears
`in_define_export`, so the flag is not cleared exactly when the guarded
call itself is exited, and the claimed protection of every boolean inside
the arguments fails. -/
theorem define_export_guard_counterexample :
    build passBooleans [defineExportGetFirst] =
      (passBooleans, [defineExportGetFirstOut]) := by
  simp [build, walkStmt, walkStmtChildren, walkStmtList, walkExpr, walkExprList,
    walkPropList, enter_expression, compress_undefined, compress_boolean,
    compress_block, enter_call_expression, exit_call_expression,
    is_object_define_property_exports, is_expression_undefined, Expr.is_literal,
    passBooleans, PeepholePass.new, defineExportGetFirst, defineExportGetFirstOut]

/-- C2, amended: with booleans enabled every boolean literal is rewritten
to `!0` or `!1` while `in_define_export` is unset; entering a call that is
an expression statement and matches `Object.defineProperty(exports, ...)`
with a static member access sets the flag; exiting ANY call expression
(not only that same call) clears it, so boolean literals inside the
guarded call's arguments are protected only until the first nested call
inside the arguments is exited (the canonical descriptor with the boolean
before any nested call stays protected). -/
theorem define_export_guard :
    (∀ st, (exit_call_expression st).in_define_export = false) ∧
    (∀ st p callee args, (enter_call_expression st p callee args).in_define_export =
      (st.in_define_export || (p && is_object_define_property_exports callee args))) ∧
    (∀ st b, compress_boolean st (.booleanLiteral b) =
      (st, if st.options.booleans && !st.in_define_export
        then (.unary .logicalNot (.numericLiteral (if b then 0 else 1)
          (if b then "0" else "1")), true)
        else (.booleanLiteral b, false))) ∧
    (build passBooleans [defineExportEnumFirst] =
      (passBooleans, [defineExportEnumFirst])) ∧
    (walkExpr passBooleans false (.booleanLiteral true) =
      (passBooleans, .unary .logicalNot (.numericLiteral 0 "0"))) := by
  refine ⟨?_, ?_, ?_, ?_, ?_⟩
  · intro st
    rfl
  · intro st p callee args
    by_cases h : (p && is_object_define_property_exports callee args) = true <;>
      simp [enter_call_expression, h]
  · intro st b
    by_cases h : (st.options.booleans && !st.in_define_export) = true <;>
      simp [compress_boolean, h]
  · simp [build, walkStmt, walkStmtChildren, walkStmtList, walkExpr, walkExprList,
      walkPropList, enter_expression, compress_undefined, compress_boolean,
      compress_block, enter_call_expression, exit_call_expression,
      is_object_define_property_exports, is_expression_undefined, Expr.is_literal,
      passBooleans, PeepholePass.new, defineExportEnumFirst]
  · simp [walkExpr, enter_expression, compress_undefined, compress_boolean,
      is_expression_undefined, passBooleans, PeepholePass.new]

/-- C10: `build` resets `changed` (its result does not depend on the
incoming `changed` value); `compress_boolean` leaves the pass state - in
particular `changed` - untouched (`compress_undefined` and
`compress_typeof_undefined` take the state read-only by their types); the
block-unwrap, return-argument-drop and variable-initializer-drop rewrites
each set `changed`; and a run in which all three expression-level rewrites
fire ends with `changed` still false while the program was mutated. -/
theorem changed_flag_accounting :
    (∀ st1 st2 prog, st1.options = st2.options →
      st1.in_define_export = st2.in_define_export →
      build st1 prog = build st2 prog) ∧
    (∀ st e, (compress_boolean st e).1 = st) ∧
    (∀ (inner : Stmt) (ch : Bool), inner.is_declaration = false →
      (compress_block (.blockStmt [inner]) ch).2 = true) ∧
    (∀ st e, (e.is_undefined || e.is_void_0) = true →
      (compress_return_statement st (some e)).1.changed = true) ∧
    (∀ st (kind : VarKind) (e : Expr), kind ≠ .const →
      is_expression_undefined e = true →
      (compress_variable_declarator st (.mk kind (some e))).1.changed = true) ∧
    (build passAll onlyExprProgram = (passAll, onlyExprProgramOut)) := by
  refine ⟨?_, ?_, ?_, ?_, ?_, ?_⟩
  · intro st1 st2 prog h1 h2
    unfold build
    have : ({ st1 with changed := false } : PeepholePass) =
        { st2 with changed := false } := by
      cases st1
      cases st2
      simp_all
    rw [this]
  · intro st e
    cases e <;> simp only [compress_boolean]
    split <;> rfl
  · intro inner ch h
    rw [compress_block, if_neg (by simp [h])]
    exact compress_block_changed_true inner
  · intro st e h
    simp [compress_return_statement, h]
  · intro st kind e hk he
    simp [compress_variable_declarator, VariableDeclarator.kind,
      VariableDeclarator.init, hk, he]
  · simp [build, walkStmt, walkStmtChildren, walkStmtList, walkExpr, walkExprList,
      enter_expression, compress_undefined, compress_boolean, compress_block,
      compress_typeof_undefined, commutative_pair, check_a, check_b,
      is_specific_string_literal, is_expression_undefined, Expr.is_literal,
      void_0, passAll, PeepholePass.new, onlyExprProgram, onlyExprProgramOut]

theorem changed_flag_accounting_witness :
    (compress_block (.blockStmt [.emptyStmt]) false).2 = true :=
  changed_flag_accounting.2.2.1 .emptyStmt false (by simp [Stmt.is_declaration])

theorem module_lexer_import_record_witness :
    (moduleLexerImportSpecifier_from
      { n := some "m", s := 10, e := 13, ss := 0, se := 20,
        d := .dynamicImport 5, a := some 7 }).d = 5 ∧
    (moduleLexerImportSpecifier_from
      { n := none, s := 10, e := 13, ss := 0, se := 20,
        d := .staticImport, a := none }).a = -1 :=
  ⟨(module_lexer_import_record _).1 5 rfl,
   (module_lexer_import_record _).2.2.2.2.2.1 rfl⟩

end Oxc
